import Mathlib

/-!
Verification development for `CopyfromProjectManagementtoDev.py`: a script
that copies one table (schema and data) from a source database to a
destination database.  The Python source is shallowly embedded below:
pure string-building code becomes Lean functions on a column-metadata
record type, and the batched copy loop (with its try/finally
identity-insert discipline) becomes an explicit recursion producing a
trace of destination operations, with injectable fetch/insert failures.
-/

namespace Radisafe

/-- One row of the source-catalog column query (`meta_sql`, lines 32-52 of
the script): ordinal, name, type name, byte length, precision, scale,
nullability/identity/computed flags, and the computed-column definition
and persistence flag from the outer join (absent for normal columns). -/
structure ColMeta where
  column_id : Nat
  col_name : String
  data_type : Option String
  max_length : Int
  precision : Nat
  scale : Option Nat
  is_nullable : Bool
  is_identity : Bool
  is_computed : Bool
  computed_definition : Option String
  computed_persisted : Option Bool
deriving DecidableEq, Repr

/-- ASCII lowercase of one character, as Python `str.lower` acts on the
ASCII type names coming out of the catalog. -/
def lowerChar (c : Char) : Char :=
  if c.isUpper then Char.ofNat (c.toNat + 32) else c

/-- Executable model of Python `str.lower` (ASCII range, which covers every
catalog type name). -/
def pyLower (s : String) : String :=
  ⟨s.data.map lowerChar⟩

/-- How a Python f-string renders an optional integer (`None` or the digits);
used by the decimal branch of `format_sql_type`, which interpolates
`r.scale` directly. -/
def pyOptNat (o : Option Nat) : String :=
  match o with
  | none => "None"
  | some n => toString n

/-- Embedding of `format_sql_type` (script lines 87-120).  Python `//` is
floor division, so `max_length // 2` is `Int.fdiv`. -/
def format_sql_type (r : ColMeta) : String :=
  let dt := pyLower (r.data_type.getD "")
  if dt = "text" then "varchar(MAX)"
  else if dt = "ntext" then "nvarchar(MAX)"
  else if dt = "image" then "varbinary(MAX)"
  else if dt = "varchar" ∨ dt = "nvarchar" ∨ dt = "varbinary" then
    if r.max_length = -1 then dt ++ "(MAX)"
    else if dt = "nvarchar" then "nvarchar(" ++ toString (Int.fdiv r.max_length 2) ++ ")"
    else dt ++ "(" ++ toString r.max_length ++ ")"
  else if dt = "char" ∨ dt = "nchar" ∨ dt = "binary" then
    if dt = "nchar" then "nchar(" ++ toString (Int.fdiv r.max_length 2) ++ ")"
    else dt ++ "(" ++ toString r.max_length ++ ")"
  else if dt = "decimal" ∨ dt = "numeric" then
    dt ++ "(" ++ toString r.precision ++ "," ++ pyOptNat r.scale ++ ")"
  else if dt = "datetime2" ∨ dt = "datetimeoffset" ∨ dt = "time" then
    let s : Nat := match r.scale with
      | some v => if v ≠ 0 then v else 7
      | none => 7
    dt ++ "(" ++ toString s ++ ")"
  else dt

/-- A placeholder metadata record used to build concrete test records by
field update. -/
def baseCol : ColMeta where
  column_id := 1
  col_name := "A"
  data_type := none
  max_length := 0
  precision := 0
  scale := none
  is_nullable := true
  is_identity := false
  is_computed := false
  computed_definition := none
  computed_persisted := none

/-- A time-typed column whose catalog scale is null. -/
def timeCol : ColMeta := { baseCol with data_type := some "time", scale := none }

/-- An `nvarchar` column storing 100 bytes (50 characters). -/
def nvarcharCol : ColMeta := { baseCol with data_type := some "nvarchar", max_length := 100 }

/-- A two-column sample table in ordinal order: a plain identity column
followed by a persisted computed column. -/
def sampleCols : List ColMeta :=
  [{ baseCol with column_id := 1, col_name := "ID", data_type := some "int", is_identity := true, is_nullable := false },
   { baseCol with column_id := 2, col_name := "FullName", is_computed := true, computed_definition := some "([a]+[b])", computed_persisted := some true }]

/-- A table whose only column is computed. -/
def allComputedTable : List ColMeta :=
  [{ baseCol with column_id := 1, col_name := "FullName", is_computed := true, computed_definition := some "([a]+[b])", computed_persisted := some false }]

/-- The schema constant of the script (line 21). -/
def SCHEMA : String := "dim"

/-- The table constant of the script (line 22). -/
def TABLE : String := "Employees"

/-- Embedding of the column-definition loop (script lines 132-153).
It walks the metadata rows in order and returns the triple
`(col_defs, insertable_cols, has_identity)`: computed columns contribute a
`[name] AS definition[ PERSISTED]` clause and are skipped for the
insertable list (`continue`); the rest contribute
`[name] type[ IDENTITY(1,1)][ NULL| NOT NULL]`, are appended to
`insertable_cols`, and OR their identity flag into `has_identity`. -/
def buildDefs : List ColMeta → List String × List String × Bool
  | [] => ([], [], false)
  | r :: rest =>
    let tail := buildDefs rest
    let col_name := "[" ++ r.col_name ++ "]"
    if r.is_computed then
      let defn := r.computed_definition.getD ""
      let persisted := if r.computed_persisted.getD false then " PERSISTED" else ""
      ((col_name ++ " AS " ++ defn ++ persisted) :: tail.1, tail.2.1, tail.2.2)
    else
      let sql_type := format_sql_type r
      let ident := if r.is_identity then " IDENTITY(1,1)" else ""
      let nullability := if r.is_nullable then " NULL" else " NOT NULL"
      ((col_name ++ " " ++ sql_type ++ ident ++ nullability) :: tail.1,
       col_name :: tail.2.1,
       r.is_identity || tail.2.2)

/-- `col_defs` accumulated by the loop at lines 132-153. -/
def col_defs (cols : List ColMeta) : List String := (buildDefs cols).1

/-- `insertable_cols` accumulated by the loop at lines 132-153. -/
def insertable_cols (cols : List ColMeta) : List String := (buildDefs cols).2.1

/-- `has_identity` accumulated by the loop at lines 132-153. -/
def has_identity (cols : List ColMeta) : Bool := (buildDefs cols).2.2

/-- `create_sql` (script line 155). -/
def create_sql (cols : List ColMeta) : String :=
  "CREATE TABLE [" ++ SCHEMA ++ "].[" ++ TABLE ++ "] (\n  "
    ++ String.intercalate ",\n  " (col_defs cols) ++ "\n);"

/-- `src_select_cols` (script line 170): the joined SELECT projection. -/
def src_select_cols (cols : List ColMeta) : String :=
  String.intercalate ", " (insertable_cols cols)

/-- `src_select_sql` (script line 171). -/
def src_select_sql (cols : List ColMeta) : String :=
  "SELECT " ++ src_select_cols cols ++ " FROM [" ++ SCHEMA ++ "].[" ++ TABLE ++ "]"

/-- `placeholders` (script line 176): one `?` per insertable column. -/
def placeholders (cols : List ColMeta) : String :=
  String.intercalate ", " (List.replicate (insertable_cols cols).length "?")

/-- `insert_sql` (script line 177): note it interpolates the very same
`src_select_cols` string as the SELECT. -/
def insert_sql (cols : List ColMeta) : String :=
  "INSERT INTO [" ++ SCHEMA ++ "].[" ++ TABLE ++ "] (" ++ src_select_cols cols
    ++ ") VALUES (" ++ placeholders cols ++ ")"

/-- `BATCH` (script line 169). -/
def BATCH : Nat := 5000

/-- A statement executed on the destination connection during the copy
stage (script lines 181-197): the identity-insert toggles, a successful
`executemany` of one batch, and a `commit`. -/
inductive DstOp : Type
  | identityOn : DstOp
  | insertBatch : List Nat → DstOp
  | commit : DstOp
  | identityOff : DstOp
deriving DecidableEq, Repr

/-- Outcome of (part of) the copy stage: the trace of destination
statements that executed, the rows committed at the destination, the
value of the `rows_copied` accumulator, and whether an exception is
propagating. -/
structure CopyResult where
  trace : List DstOp
  committed : List Nat
  rows_copied : Nat
  raised : Bool
deriving DecidableEq, Repr

/-- Embedding of the `while True` copy loop (script lines 185-192), with
rows abstracted as `Nat` and the source cursor as the list of rows not
yet fetched; `fetchmany BATCH` is `take BATCH` / `drop BATCH`.  Failures
are injected per iteration: `ff i` makes the fetch of iteration `i`
raise, `fi i` makes its `executemany` raise (modelled atomically: a
failing batch insert leaves no rows behind).  A raised exception exits
the loop immediately with `raised := true`. -/
def copyLoopF (ff fi : Nat → Bool) : Nat → Nat → List Nat → CopyResult
  | 0, _, _ => ⟨[], [], 0, false⟩
  | fuel + 1, i, src =>
    if ff i then ⟨[], [], 0, true⟩
    else if src.take BATCH = [] then ⟨[], [], 0, false⟩
    else if fi i then ⟨[], [], 0, true⟩
    else
      let rest := copyLoopF ff fi fuel (i + 1) (src.drop BATCH)
      ⟨DstOp.insertBatch (src.take BATCH) :: DstOp.commit :: rest.trace,
       src.take BATCH ++ rest.committed,
       (src.take BATCH).length + rest.rows_copied,
       rest.raised⟩

/-- The copy loop proper, entered at iteration `i` with the unread part of
the source cursor being `src`.  Each iteration consumes at least one row
or stops, so `src.length + 1` units of fuel make `copyLoopF`'s
out-of-fuel case unreachable (`copyLoopF_congr` below). -/
def copyLoop (ff fi : Nat → Bool) (i : Nat) (src : List Nat) : CopyResult :=
  copyLoopF ff fi (src.length + 1) i src

def chunksF : Nat → List Nat → List (List Nat)
  | 0, _ => []
  | fuel + 1, src => if src = [] then [] else src.take BATCH :: chunksF fuel (src.drop BATCH)

/-- The successive non-empty results of `fetchmany BATCH` against a cursor
holding `src` (again with provably sufficient fuel). -/
def chunksOf (src : List Nat) : List (List Nat) :=
  chunksF (src.length + 1) src

/-- Embedding of the whole copy stage (script lines 181-197): the
`try` block turns identity-insert on when `hid` (the `has_identity`
flag), runs the loop, and the `finally` block unconditionally turns
identity-insert back off and commits when `hid`, whether or not the
loop raised. -/
def copyStage (hid : Bool) (ff fi : Nat → Bool) (src : List Nat) : CopyResult :=
  let body := copyLoop ff fi 0 src
  { trace := (cond hid [DstOp.identityOn] []) ++ body.trace
              ++ (cond hid [DstOp.identityOff, DstOp.commit] []),
    committed := body.committed,
    rows_copied := body.rows_copied,
    raised := body.raised }

/-- One row of the primary-key constraint query `pk_info_sql`
(script lines 58-65): the backing unique index id and the index type
(1 = clustered). -/
structure PkRow where
  index_id : Nat
  index_type : Nat
deriving DecidableEq, Repr

/-- One row of the index-columns query `pk_cols_sql` (script lines
67-75). -/
structure IdxCol where
  col_name : String
  is_descending_key : Bool
  key_ordinal : Nat
deriving DecidableEq, Repr

/-- `pk_cols` as assembled at script lines 77-83: empty when the
constraint query returns no row, otherwise the (name, descending) pairs
of the rows the index-columns query returns for the constraint's backing
index (`idxCols` maps an index id to that query's result list). -/
def pkColsOf (pk_row : Option PkRow) (idxCols : Nat → List IdxCol) : List (String × Bool) :=
  match pk_row with
  | none => []
  | some row => (idxCols row.index_id).map (fun r => (r.col_name, r.is_descending_key))

/-- `pk_is_clustered` as assigned at script lines 79-81. -/
def pkIsClusteredOf (pk_row : Option PkRow) : Bool :=
  match pk_row with
  | none => false
  | some row => row.index_type == 1

/-- Embedding of the primary-key replication stage (script lines
200-215) as the list of DDL statements it executes against the
destination: nothing unless `pk_cols` is non-empty (Python `if pk_cols:`),
nothing if the destination existence query found a PK constraint
(`exists_pk`), otherwise the single ALTER TABLE statement built from the
ordered key columns, the deterministic constraint name and the
clustered flag. -/
def pkDdl (pk_cols : List (String × Bool)) (pk_is_clustered : Bool) (exists_pk : Bool) :
    List String :=
  if pk_cols = [] then []
  else if exists_pk then []
  else
    let cols_ddl := String.intercalate ", "
      (pk_cols.map (fun p => "[" ++ p.1 ++ "] " ++ (if p.2 then "DESC" else "ASC")))
    let pk_name := "PK_" ++ SCHEMA ++ "_" ++ TABLE
    let clustered := if pk_is_clustered then "CLUSTERED" else "NONCLUSTERED"
    ["ALTER TABLE [" ++ SCHEMA ++ "].[" ++ TABLE ++ "] ADD CONSTRAINT [" ++ pk_name
      ++ "] PRIMARY KEY " ++ clustered ++ " (" ++ cols_ddl ++ ");"]

/-- An empty `fetchmany BATCH` result means the cursor is exhausted. -/
theorem take_BATCH_eq_nil {src : List Nat} : src.take BATCH = [] ↔ src = [] := by
  rw [List.take_eq_nil_iff]
  simp [BATCH]

/-- `chunksF` does not depend on the fuel once it exceeds the cursor
length. -/
theorem chunksF_congr : ∀ (fu fv : Nat) (src : List Nat),
    src.length < fu → src.length < fv → chunksF fu src = chunksF fv src := by
  intro fu
  induction fu with
  | zero => intro fv src h _; omega
  | succ fu ih =>
    intro fv src hu hv
    have hB : 0 < BATCH := by decide
    cases fv with
    | zero => omega
    | succ fv =>
      simp only [chunksF]
      by_cases hs : src = []
      · simp [hs]
      · have hpos : 0 < src.length := List.length_pos.mpr hs
        simp only [hs, if_false]
        have hd : (src.drop BATCH).length = src.length - BATCH := List.length_drop BATCH src
        have h1 : (src.drop BATCH).length < fu := by omega
        have h2 : (src.drop BATCH).length < fv := by omega
        rw [ih fv (src.drop BATCH) h1 h2]

/-- One-step unfolding of `chunksOf`. -/
theorem chunksOf_eq (src : List Nat) :
    chunksOf src = if src = [] then [] else src.take BATCH :: chunksOf (src.drop BATCH) := by
  by_cases hs : src = []
  · simp [hs, chunksOf, chunksF]
  · have hB : 0 < BATCH := by decide
    have hpos : 0 < src.length := List.length_pos.mpr hs
    have hd : (src.drop BATCH).length = src.length - BATCH := List.length_drop BATCH src
    conv_lhs => simp only [chunksOf, chunksF]
    simp only [hs, if_false]
    rw [chunksF_congr src.length ((src.drop BATCH).length + 1) (src.drop BATCH) (by omega) (by omega)]
    rfl

/-- The batches concatenate back to the whole source. -/
theorem chunksF_flatten : ∀ (fu : Nat) (src : List Nat), src.length < fu →
    (chunksF fu src).flatten = src := by
  intro fu
  induction fu with
  | zero => intro src h; omega
  | succ fu ih =>
    intro src hu
    have hB : 0 < BATCH := by decide
    by_cases hs : src = []
    · simp [hs, chunksF]
    · have hpos : 0 < src.length := List.length_pos.mpr hs
      have hd : (src.drop BATCH).length = src.length - BATCH := List.length_drop BATCH src
      simp only [chunksF, hs, if_false, List.flatten_cons]
      rw [ih (src.drop BATCH) (by omega), List.take_append_drop]

/-- The batches concatenate back to the whole source. -/
theorem chunksOf_flatten (src : List Nat) : (chunksOf src).flatten = src :=
  chunksF_flatten (src.length + 1) src (Nat.lt_succ_self _)

/-- Every batch is non-empty and holds at most `BATCH` rows. -/
theorem chunksF_mem : ∀ (fu : Nat) (src : List Nat), ∀ b ∈ chunksF fu src,
    b ≠ [] ∧ b.length ≤ BATCH := by
  intro fu
  induction fu with
  | zero => intro src b hb; simp [chunksF] at hb
  | succ fu ih =>
    intro src b hb
    by_cases hs : src = []
    · simp [hs, chunksF] at hb
    · simp only [chunksF, hs, if_false, List.mem_cons] at hb
      rcases hb with hb | hb
      · subst hb
        refine ⟨?_, ?_⟩
        · simp only [ne_eq, take_BATCH_eq_nil]
          exact hs
        · rw [List.length_take]
          exact Nat.min_le_left _ _
      · exact ih (src.drop BATCH) b hb

/-- Every batch is non-empty and holds at most `BATCH` rows. -/
theorem chunksOf_mem (src : List Nat) : ∀ b ∈ chunksOf src, b ≠ [] ∧ b.length ≤ BATCH :=
  chunksF_mem (src.length + 1) src

/-- The batch sizes sum to the source size. -/
theorem chunksOf_sum (src : List Nat) : ((chunksOf src).map List.length).sum = src.length := by
  rw [← List.length_flatten, chunksOf_flatten]

/-- A failure-free run of the loop: one insert and one commit per batch,
every source row committed, the accumulator at the source size, and no
exception. -/
theorem copyLoopF_success : ∀ (fu i : Nat) (src : List Nat), src.length < fu →
    copyLoopF (fun _ => false) (fun _ => false) fu i src =
      ⟨(chunksOf src).flatMap (fun b => [DstOp.insertBatch b, DstOp.commit]),
       src, src.length, false⟩ := by
  intro fu
  induction fu with
  | zero => intro i src h; omega
  | succ fu ih =>
    intro i src hu
    have hB : 0 < BATCH := by decide
    by_cases hs : src = []
    · subst hs
      simp [copyLoopF, chunksOf, chunksF]
    · have hpos : 0 < src.length := List.length_pos.mpr hs
      have hd : (src.drop BATCH).length = src.length - BATCH := List.length_drop BATCH src
      have htake : ¬ src.take BATCH = [] := by
        simp only [take_BATCH_eq_nil]
        exact hs
      have hta : src.take BATCH ++ src.drop BATCH = src := List.take_append_drop BATCH src
      have hlen : (src.take BATCH).length + (src.drop BATCH).length = src.length := by
        rw [List.length_take, hd]
        omega
      simp only [copyLoopF, htake, if_false, if_neg, Bool.false_eq_true, ite_false]
      rw [ih (i + 1) (src.drop BATCH) (by omega)]
      rw [chunksOf_eq src]
      simp [hs, List.flatMap_cons, hta, hlen]
      omega

/-- A failure-free run of the whole loop from its entry point. -/
theorem copyLoop_success (i : Nat) (src : List Nat) :
    copyLoop (fun _ => false) (fun _ => false) i src =
      ⟨(chunksOf src).flatMap (fun b => [DstOp.insertBatch b, DstOp.commit]),
       src, src.length, false⟩ :=
  copyLoopF_success (src.length + 1) i src (Nat.lt_succ_self _)

/-- The loop body never toggles identity-insert: only the wrapper around
the loop does. -/
theorem copyLoopF_no_identity (ff fi : Nat → Bool) : ∀ (fu i : Nat) (src : List Nat),
    DstOp.identityOn ∉ (copyLoopF ff fi fu i src).trace ∧
    DstOp.identityOff ∉ (copyLoopF ff fi fu i src).trace := by
  intro fu
  induction fu with
  | zero => intro i src; simp [copyLoopF]
  | succ fu ih =>
    intro i src
    by_cases h1 : ff i = true
    · simp [copyLoopF, h1]
    · by_cases h2 : src.take BATCH = []
      · simp [copyLoopF, h1, h2]
      · by_cases h3 : fi i = true
        · simp [copyLoopF, h1, h2, h3]
        · have hrec := ih (i + 1) (src.drop BATCH)
          simp [copyLoopF, h1, h2, h3, hrec.1, hrec.2]

/-- A run whose `executemany` raises exactly on (0-based) batch `m`, all
earlier batches succeeding: the first `m` batches are inserted and
committed, the accumulator counts exactly their rows, and the exception
propagates. -/
theorem copyLoopF_failAt : ∀ (m fu i : Nat) (src : List Nat) (fi : Nat → Bool),
    (∀ j, j < m → fi (i + j) = false) → fi (i + m) = true →
    m * BATCH < src.length → src.length < fu →
    copyLoopF (fun _ => false) fi fu i src =
      ⟨((chunksOf src).take m).flatMap (fun b => [DstOp.insertBatch b, DstOp.commit]),
       ((chunksOf src).take m).flatten,
       (((chunksOf src).take m).flatten).length,
       true⟩ := by
  intro m
  induction m with
  | zero =>
    intro fu i src fi hlt hm hlen hfu
    have hB : 0 < BATCH := by decide
    have hs : src ≠ [] := by
      intro h
      rw [h] at hlen
      simp at hlen
    have htake : ¬ src.take BATCH = [] := by
      simp only [take_BATCH_eq_nil]
      exact hs
    have hfi : fi i = true := hm
    cases fu with
    | zero => omega
    | succ fu =>
      simp [copyLoopF, htake, hfi]
  | succ m ih =>
    intro fu i src fi hlt hm hlen hfu
    have hB : 0 < BATCH := by decide
    have hpos : 0 < src.length := by
      have : 0 ≤ (m + 1) * BATCH := Nat.zero_le _
      omega
    have hs : src ≠ [] := by
      intro h
      rw [h] at hpos
      simp at hpos
    have htake : ¬ src.take BATCH = [] := by
      simp only [take_BATCH_eq_nil]
      exact hs
    have hfi : fi i = false := by
      have := hlt 0 (Nat.succ_pos m)
      simpa using this
    have hd : (src.drop BATCH).length = src.length - BATCH := List.length_drop BATCH src
    cases fu with
    | zero => omega
    | succ fu =>
      simp only [copyLoopF, htake, hfi, if_false, Bool.false_eq_true, ite_false]
      have hlt2 : ∀ j, j < m → fi (i + 1 + j) = false := by
        intro j hj
        have h1 : i + 1 + j = i + (j + 1) := by omega
        rw [h1]
        exact hlt (j + 1) (by omega)
      have hm2 : fi (i + 1 + m) = true := by
        have h1 : i + 1 + m = i + (m + 1) := by omega
        rw [h1]
        exact hm
      have hlen2 : m * BATCH < (src.drop BATCH).length := by
        have : (m + 1) * BATCH = m * BATCH + BATCH := by ring
        omega
      rw [ih fu (i + 1) (src.drop BATCH) fi hlt2 hm2 hlen2 (by omega)]
      rw [chunksOf_eq src]
      simp [hs, List.take_succ_cons, List.flatMap_cons, List.flatten_cons, List.length_append]

/-- Closed form of the column-definition loop: the declaration clauses are
a map over all records, the insertable list a map over the non-computed
records in order, and `has_identity` the OR of their identity flags. -/
theorem buildDefs_eq (cols : List ColMeta) :
    buildDefs cols =
      (cols.map (fun r =>
        if r.is_computed then
          "[" ++ r.col_name ++ "] AS " ++ r.computed_definition.getD ""
            ++ (if r.computed_persisted.getD false then " PERSISTED" else "")
        else
          "[" ++ r.col_name ++ "] " ++ format_sql_type r
            ++ (if r.is_identity then " IDENTITY(1,1)" else "")
            ++ (if r.is_nullable then " NULL" else " NOT NULL")),
       (cols.filter (fun r => !r.is_computed)).map (fun r => "[" ++ r.col_name ++ "]"),
       (cols.filter (fun r => !r.is_computed)).any (fun r => r.is_identity)) := by
  induction cols with
  | nil => rfl
  | cons r rest ih =>
    by_cases hc : r.is_computed
    · simp [buildDefs, ih, hc, List.filter_cons, String.append_assoc]
    · simp [buildDefs, ih, hc, List.filter_cons, String.append_assoc]

/-- C1: the SELECT statement and the INSERT statement interpolate the same
column-list string, the comma join of `insertable_cols`; that list is
exactly the bracketed names of the non-computed metadata records in
their given order, and since the metadata arrives sorted by `column_id`
(the query's ORDER BY), the shared list is in ordinal order. -/
theorem select_insert_column_alignment (cols : List ColMeta)
    (hord : cols.Pairwise (fun a b => a.column_id < b.column_id)) :
    src_select_sql cols
      = "SELECT " ++ String.intercalate ", " (insertable_cols cols) ++ " FROM [dim].[Employees]"
  ∧ insert_sql cols
      = "INSERT INTO [dim].[Employees] (" ++ String.intercalate ", " (insertable_cols cols)
          ++ ") VALUES (" ++ placeholders cols ++ ")"
  ∧ insertable_cols cols
      = (cols.filter (fun r => !r.is_computed)).map (fun r => "[" ++ r.col_name ++ "]")
  ∧ (cols.filter (fun r => !r.is_computed)).Pairwise (fun a b => a.column_id < b.column_id) := by
  refine ⟨?_, ?_, ?_, hord.sublist (List.filter_sublist cols)⟩
  · simp [src_select_sql, src_select_cols, SCHEMA, TABLE, String.append_assoc]
  · simp [insert_sql, src_select_cols, SCHEMA, TABLE, String.append_assoc]
  · simp [insertable_cols, buildDefs_eq]

/-- Witness for C1 at the two-column sample table. -/
theorem select_insert_column_alignment_witness :
    sampleCols.Pairwise (fun a b => a.column_id < b.column_id)
  ∧ (src_select_sql sampleCols
      = "SELECT " ++ String.intercalate ", " (insertable_cols sampleCols) ++ " FROM [dim].[Employees]"
    ∧ insert_sql sampleCols
      = "INSERT INTO [dim].[Employees] (" ++ String.intercalate ", " (insertable_cols sampleCols)
          ++ ") VALUES (" ++ placeholders sampleCols ++ ")"
    ∧ insertable_cols sampleCols
      = (sampleCols.filter (fun r => !r.is_computed)).map (fun r => "[" ++ r.col_name ++ "]")
    ∧ (sampleCols.filter (fun r => !r.is_computed)).Pairwise (fun a b => a.column_id < b.column_id)) :=
  ⟨by decide, select_insert_column_alignment sampleCols (by decide)⟩

/-- C2: the copy stage's destination trace is the loop trace bracketed by
SET IDENTITY_INSERT ON before and SET IDENTITY_INSERT OFF plus a commit
after exactly when `has_identity` holds — the `finally` bracket appears
whether the loop finished normally or raised on any fetch or insert —
and the loop trace itself never touches identity-insert, so without an
identity column no identity statement is ever issued. -/
theorem identity_insert_discipline (hid : Bool) (ff fi : Nat → Bool) (src : List Nat) :
    (copyStage hid ff fi src).trace
      = (cond hid [DstOp.identityOn] []) ++ (copyLoop ff fi 0 src).trace
          ++ (cond hid [DstOp.identityOff, DstOp.commit] [])
  ∧ ((copyLoop ff fi 0 src).trace.all
      (fun op => decide (op ≠ DstOp.identityOn) && decide (op ≠ DstOp.identityOff))) = true := by
  refine ⟨rfl, ?_⟩
  rw [List.all_eq_true]
  intro op hop
  have h := copyLoopF_no_identity ff fi (src.length + 1) 0 src
  simp only [Bool.and_eq_true, decide_eq_true_eq]
  constructor
  · intro he
    subst he
    exact h.1 hop
  · intro he
    subst he
    exact h.2 hop

/-- Witness for C2 with an identity column, a mid-copy insert failure and
a three-row source. -/
theorem identity_insert_discipline_witness :
    (copyStage true (fun _ => false) (fun i => decide (i = 0)) [1, 2, 3]).trace
      = (cond true [DstOp.identityOn] [])
          ++ (copyLoop (fun _ => false) (fun i => decide (i = 0)) 0 [1, 2, 3]).trace
          ++ (cond true [DstOp.identityOff, DstOp.commit] [])
  ∧ ((copyLoop (fun _ => false) (fun i => decide (i = 0)) 0 [1, 2, 3]).trace.all
      (fun op => decide (op ≠ DstOp.identityOn) && decide (op ≠ DstOp.identityOff))) = true :=
  identity_insert_discipline true (fun _ => false) (fun i => decide (i = 0)) [1, 2, 3]

/-- C3: when the insert of (1-based) batch `k` raises and all earlier
batches succeeded, the stage reports the exception, the destination
holds exactly the rows of the first `k - 1` batches — none of batch `k`,
none rolled back — and the trace shows the `k - 1` insert/commit pairs
followed by the identity-insert cleanup when enabled. -/
theorem batch_failure_partial_copy (hid : Bool) (src : List Nat) (k : Nat)
    (_hk : 1 ≤ k) (hkth : (k - 1) * BATCH < src.length) :
    (copyStage hid (fun _ => false) (fun i => decide (i = k - 1)) src).raised = true
  ∧ (copyStage hid (fun _ => false) (fun i => decide (i = k - 1)) src).committed
      = ((chunksOf src).take (k - 1)).flatten
  ∧ (copyStage hid (fun _ => false) (fun i => decide (i = k - 1)) src).trace
      = (cond hid [DstOp.identityOn] [])
        ++ ((chunksOf src).take (k - 1)).flatMap (fun b => [DstOp.insertBatch b, DstOp.commit])
        ++ (cond hid [DstOp.identityOff, DstOp.commit] []) := by
  have hloop := copyLoopF_failAt (k - 1) (src.length + 1) 0 src (fun i => decide (i = k - 1))
    (by
      intro j hj
      simp only [Nat.zero_add, decide_eq_false_iff_not]
      omega)
    (by simp) hkth (Nat.lt_succ_self _)
  refine ⟨?_, ?_, ?_⟩ <;> simp [copyStage, copyLoop, hloop]

/-- Witness for C3: 5001 source rows form two batches; the insert of batch
2 fails, leaving exactly the 5000 rows of batch 1 committed. -/
theorem batch_failure_partial_copy_witness :
    1 ≤ 2
  ∧ (2 - 1) * BATCH < (List.replicate 5001 0).length
  ∧ ((copyStage true (fun _ => false) (fun i => decide (i = 2 - 1)) (List.replicate 5001 0)).raised = true
    ∧ (copyStage true (fun _ => false) (fun i => decide (i = 2 - 1)) (List.replicate 5001 0)).committed
        = ((chunksOf (List.replicate 5001 0)).take (2 - 1)).flatten
    ∧ (copyStage true (fun _ => false) (fun i => decide (i = 2 - 1)) (List.replicate 5001 0)).trace
        = (cond true [DstOp.identityOn] [])
          ++ ((chunksOf (List.replicate 5001 0)).take (2 - 1)).flatMap
              (fun b => [DstOp.insertBatch b, DstOp.commit])
          ++ (cond true [DstOp.identityOff, DstOp.commit] [])) :=
  ⟨by decide, by rw [List.length_replicate]; decide,
   batch_failure_partial_copy true (List.replicate 5001 0) 2 (by decide)
     (by rw [List.length_replicate]; decide)⟩

/-- C4: each metadata record yields exactly the declaration clause the
claim describes — computed columns get `name AS definition` with a
PERSISTED suffix exactly when flagged and are left out of the insertable
set, plain columns get `name type` with an IDENTITY(1,1) suffix exactly
when flagged and NULL/NOT NULL per nullability and are appended to the
insertable set — and `has_identity` is the OR of the identity flags of
the non-computed records. -/
theorem column_clause_construction (cols : List ColMeta) :
    col_defs cols = cols.map (fun r =>
        if r.is_computed then
          "[" ++ r.col_name ++ "] AS " ++ r.computed_definition.getD ""
            ++ (if r.computed_persisted.getD false then " PERSISTED" else "")
        else
          "[" ++ r.col_name ++ "] " ++ format_sql_type r
            ++ (if r.is_identity then " IDENTITY(1,1)" else "")
            ++ (if r.is_nullable then " NULL" else " NOT NULL"))
  ∧ insertable_cols cols
      = (cols.filter (fun r => !r.is_computed)).map (fun r => "[" ++ r.col_name ++ "]")
  ∧ has_identity cols = (cols.filter (fun r => !r.is_computed)).any (fun r => r.is_identity) := by
  refine ⟨?_, ?_, ?_⟩ <;> simp [col_defs, insertable_cols, has_identity, buildDefs_eq]

/-- C5: a high-precision temporal column is formatted `type(scale)`, where
the emitted scale is 7 when the catalog scale is null or zero and the
catalog scale otherwise. -/
theorem temporal_scale_default (r : ColMeta)
    (hdt : pyLower (r.data_type.getD "") = "datetime2"
         ∨ pyLower (r.data_type.getD "") = "datetimeoffset"
         ∨ pyLower (r.data_type.getD "") = "time") :
    format_sql_type r
      = pyLower (r.data_type.getD "") ++ "("
        ++ toString (match r.scale with
            | none => 7
            | some v => if v ≠ 0 then v else 7) ++ ")" := by
  rcases hdt with h | h | h <;>
    cases hs : r.scale with
    | none => simp [format_sql_type, h, hs, String.append_assoc]
    | some v => by_cases hv : v = 0 <;> simp [format_sql_type, h, hs, hv, String.append_assoc]

/-- Witness for C5 at a time column with null catalog scale. -/
theorem temporal_scale_default_witness :
    (pyLower (timeCol.data_type.getD "") = "datetime2"
      ∨ pyLower (timeCol.data_type.getD "") = "datetimeoffset"
      ∨ pyLower (timeCol.data_type.getD "") = "time")
  ∧ format_sql_type timeCol
      = pyLower (timeCol.data_type.getD "") ++ "("
        ++ toString (match timeCol.scale with
            | none => 7
            | some v => if v ≠ 0 then v else 7) ++ ")" :=
  ⟨by decide, temporal_scale_default timeCol (by decide)⟩

/-- C6: a variable-length character/binary column with the unbounded
sentinel byte length -1 is formatted `type(MAX)`; otherwise the declared
length is the stored byte count floor-halved for the wide-character type
nvarchar and the stored byte count itself for the narrow/binary types;
and the same halving applies to the fixed-length wide-character type
nchar. -/
theorem varlen_length_format (r : ColMeta)
    (hdt : pyLower (r.data_type.getD "") = "varchar"
         ∨ pyLower (r.data_type.getD "") = "nvarchar"
         ∨ pyLower (r.data_type.getD "") = "varbinary") :
    format_sql_type r
      = (if r.max_length = -1 then pyLower (r.data_type.getD "") ++ "(MAX)"
         else if pyLower (r.data_type.getD "") = "nvarchar" then
           "nvarchar(" ++ toString (Int.fdiv r.max_length 2) ++ ")"
         else pyLower (r.data_type.getD "") ++ "(" ++ toString r.max_length ++ ")")
  ∧ format_sql_type { r with data_type := some "nchar" }
      = "nchar(" ++ toString (Int.fdiv r.max_length 2) ++ ")" := by
  have hnchar : pyLower "nchar" = "nchar" := by decide
  constructor
  · rcases hdt with h | h | h <;> by_cases hm : r.max_length = -1 <;>
      simp [format_sql_type, h, hm, String.append_assoc]
  · simp [format_sql_type, hnchar, String.append_assoc]

/-- Witness for C6 at a bounded nvarchar column of 100 stored bytes. -/
theorem varlen_length_format_witness :
    (pyLower (nvarcharCol.data_type.getD "") = "varchar"
      ∨ pyLower (nvarcharCol.data_type.getD "") = "nvarchar"
      ∨ pyLower (nvarcharCol.data_type.getD "") = "varbinary")
  ∧ (format_sql_type nvarcharCol
      = (if nvarcharCol.max_length = -1 then pyLower (nvarcharCol.data_type.getD "") ++ "(MAX)"
         else if pyLower (nvarcharCol.data_type.getD "") = "nvarchar" then
           "nvarchar(" ++ toString (Int.fdiv nvarcharCol.max_length 2) ++ ")"
         else pyLower (nvarcharCol.data_type.getD "") ++ "(" ++ toString nvarcharCol.max_length ++ ")")
    ∧ format_sql_type { nvarcharCol with data_type := some "nchar" }
      = "nchar(" ++ toString (Int.fdiv nvarcharCol.max_length 2) ++ ")") :=
  ⟨by decide, varlen_length_format nvarcharCol (by decide)⟩

/-- C7: the primary-key stage executes no DDL when the collected key
columns are empty or the destination existence query found a PK, and
otherwise exactly one ALTER TABLE ADD CONSTRAINT statement, named
deterministically `PK_dim_Employees`, listing the key columns in their
given order each with its ASC/DESC direction, clustered per the source
flag. -/
theorem pk_replication_ddl (pk_cols : List (String × Bool)) (clu ex : Bool) :
    pkDdl pk_cols clu ex
      = if pk_cols = [] ∨ ex = true then []
        else ["ALTER TABLE [dim].[Employees] ADD CONSTRAINT [PK_dim_Employees] PRIMARY KEY "
              ++ (if clu then "CLUSTERED" else "NONCLUSTERED") ++ " ("
              ++ String.intercalate ", "
                  (pk_cols.map (fun p => "[" ++ p.1 ++ "] " ++ (if p.2 then "DESC" else "ASC")))
              ++ ");"] := by
  by_cases h1 : pk_cols = []
  · simp [pkDdl, h1]
  · by_cases h2 : ex = true
    · simp [pkDdl, h1, h2]
    · simp [pkDdl, h1, h2, SCHEMA, TABLE, String.append_assoc]

/-- C8: a failure-free run fetches only non-empty batches of at most
BATCH rows, pairs every insert with an immediate commit, stops exactly
at the empty fetch, commits every source row, and accumulates a row
count equal to the sum of the batch sizes, which is the source size. -/
theorem copy_loop_accounting (hid : Bool) (src : List Nat) :
    (copyStage hid (fun _ => false) (fun _ => false) src).raised = false
  ∧ (copyStage hid (fun _ => false) (fun _ => false) src).rows_copied
      = ((chunksOf src).map List.length).sum
  ∧ (copyStage hid (fun _ => false) (fun _ => false) src).rows_copied = src.length
  ∧ (copyStage hid (fun _ => false) (fun _ => false) src).committed = src
  ∧ (copyStage hid (fun _ => false) (fun _ => false) src).trace
      = (cond hid [DstOp.identityOn] [])
        ++ (chunksOf src).flatMap (fun b => [DstOp.insertBatch b, DstOp.commit])
        ++ (cond hid [DstOp.identityOff, DstOp.commit] [])
  ∧ ((chunksOf src).all (fun b => !b.isEmpty && decide (b.length ≤ BATCH))) = true := by
  have h := copyLoop_success 0 src
  refine ⟨?_, ?_, ?_, ?_, ?_, ?_⟩
  · simp [copyStage, h]
  · simp [copyStage, h, chunksOf_sum]
  · simp [copyStage, h]
  · simp [copyStage, h]
  · simp [copyStage, h]
  · rw [List.all_eq_true]
    intro b hb
    have hmem := chunksOf_mem src b hb
    simp [List.isEmpty_iff, hmem.1, hmem.2]

/-- C9: even when the constraint query returned a row, an empty result of
the index-columns query leaves `pk_cols` empty, and the replication
stage then issues no DDL: the decision rests solely on the collected
key-column list. -/
theorem pk_row_without_index_cols_no_ddl (row : PkRow) (idxCols : Nat → List IdxCol)
    (clu ex : Bool) (h : idxCols row.index_id = []) :
    pkColsOf (some row) idxCols = []
  ∧ pkDdl (pkColsOf (some row) idxCols) clu ex = [] := by
  have h1 : pkColsOf (some row) idxCols = [] := by simp [pkColsOf, h]
  exact ⟨h1, by simp [pkDdl, h1]⟩

/-- Witness for C9: a present constraint row whose backing index yields
no columns. -/
theorem pk_row_without_index_cols_no_ddl_witness :
    (fun _ : Nat => ([] : List IdxCol)) (PkRow.mk 1 1).index_id = []
  ∧ (pkColsOf (some (PkRow.mk 1 1)) (fun _ => []) = []
    ∧ pkDdl (pkColsOf (some (PkRow.mk 1 1)) (fun _ => [])) true false = []) :=
  ⟨rfl, pk_row_without_index_cols_no_ddl (PkRow.mk 1 1) (fun _ => []) true false rfl⟩

/-- C10: a table whose every column is computed is a valid input on which
the insertable set is empty and the generated copy statements are
malformed — the SELECT has an empty projection and the INSERT empty
column and value lists — and in general the insertable set is empty
exactly when every column is computed, so well-formedness of the copy
statements presupposes a non-computed column. -/
theorem all_computed_malformed_sql :
    insertable_cols allComputedTable = []
  ∧ src_select_sql allComputedTable = "SELECT  FROM [dim].[Employees]"
  ∧ insert_sql allComputedTable = "INSERT INTO [dim].[Employees] () VALUES ()"
  ∧ ∀ cols : List ColMeta,
      (insertable_cols cols).isEmpty = cols.all (fun r => r.is_computed) := by
  refine ⟨by decide, by decide, by decide, ?_⟩
  intro cols
  induction cols with
  | nil => rfl
  | cons r t ih =>
    by_cases hc : r.is_computed
    · simp only [insertable_cols, buildDefs, hc, List.all_cons, ite_true]
      simp only [insertable_cols] at ih
      simp [hc, ih]
    · simp only [insertable_cols, buildDefs, hc, List.all_cons, ite_false]
      simp [hc]

end Radisafe
